import Mathlib

/-!
Verification of the gensales-service webhook sync core: identity matching
(contact-matcher.service.ts), merge policy (contact-merger.service.ts) and the
webhook controller (outreach-sync.controller.ts), embedded shallowly.

Conventions of the embedding:
* TypeScript `string | undefined | null` optional values become `Option String`
  (`none` stands for an absent value; JavaScript truthiness is modelled by
  `jsTruthy`, under which the empty string is falsy).
* The Prisma storage layer is modelled as an in-memory list of contact rows;
  a raw SQL lookup, `findFirst`, `create` and `update` become list operations.
* `Date` timestamps are threaded in as an opaque string parameter `now`.
* The regular expressions of the source are fixed case-insensitive literal
  patterns followed by a capture group; they are embedded by an explicit
  leftmost-match scanner over character lists.
-/

/-- JavaScript truthiness of an optional string: `undefined`/`null` and the
empty string are falsy, every other string is truthy. -/
def jsTruthy : Option String → Bool
  | some s => decide (s ≠ "")
  | none => false

/-- JavaScript `a || b` on optional string values. -/
def jsOr (a b : Option String) : Option String :=
  if jsTruthy a then a else b

/-- JavaScript `a || null` on an optional string value. -/
def jsOrNull (a : Option String) : Option String :=
  if jsTruthy a then a else none

/-- JavaScript `a || b` on optional array values: any array (even empty) is
truthy, only `undefined`/`null` fall through. -/
def jsOrArr (a b : Option (List String)) : Option (List String) :=
  match a with
  | some v => some v
  | none => b

/-- Model of JavaScript `String.prototype.toLowerCase` (ASCII case mapping,
which is all the source relies on for emails). -/
def toLowerCase (s : String) : String :=
  ⟨s.data.map Char.toLower⟩

/-- UTF-8 encoding of one character, as byte values.  Models what
`Buffer.from(string)` produces per character in Node. -/
def charUtf8Bytes (c : Char) : List Nat :=
  let n := c.toNat
  if n < 128 then [n]
  else if n < 2048 then [192 + n / 64, 128 + n % 64]
  else if n < 65536 then [224 + n / 4096, 128 + (n / 64) % 64, 128 + n % 64]
  else [240 + n / 262144, 128 + (n / 4096) % 64, 128 + (n / 64) % 64, 128 + n % 64]

/-- Byte content of `Buffer.from(s)` for a string `s` (UTF-8). -/
def utf8Bytes (s : String) : List Nat :=
  s.data.flatMap charUtf8Bytes

/-- The characters at which the capture group `[^/?#]+` of the LinkedIn URL
regular expressions stops. -/
def isStopChar (c : Char) : Bool :=
  c == '/' || c == '?' || c == '#'

/-- Case-insensitive test that the lowercase literal pattern `p` occurs at the
start of `l` (the window of `l` of the pattern length, lowercased, equals
`p`). -/
def ciMatchAt (p l : List Char) : Bool :=
  (l.take p.length).map Char.toLower == p

/-- Leftmost match of the regular expression `p([^/?#]+)` (with `p` a
lowercase literal, matched case-insensitively) against a character list,
returning the greedy capture.  A position where the literal matches but the
capture would be empty is skipped, as a backtracking regex engine does. -/
def scanCapture (p : List Char) : List Char → Option (List Char)
  | [] => none
  | c :: rest =>
    if ciMatchAt p (c :: rest) then
      let cap := ((c :: rest).drop p.length).takeWhile (fun x => !isStopChar x)
      if cap.isEmpty then scanCapture p rest else some cap
    else scanCapture p rest

/-- String-level wrapper for `scanCapture`: models
`url.match(/<pattern>([^/?#]+)/i)` returning the first capture group. -/
def regexCaptureCI (p : String) (s : String) : Option String :=
  (scanCapture p.data s.data).map fun cap => ⟨cap⟩

/-- Model of `[...new Set(l)]`: deduplication keeping first occurrences. -/
def dedupKeepFirst (seen : List String) : List String → List String
  | [] => []
  | x :: xs =>
    if x ∈ seen then dedupKeepFirst seen xs
    else x :: dedupKeepFirst (x :: seen) xs

namespace ContactMatcherService

/-- Literal part of the pattern `/linkedin\.com\/in\/([^/?#]+)/i`. -/
def inPattern : String := "linkedin.com/in/"

/-- Literal part of the pattern `/linkedin\.com\/sales\/lead\/([^/?#]+)/i`. -/
def salesLeadPattern : String := "linkedin.com/sales/lead/"

/-- Literal part of the pattern `/linkedin\.com\/sales\/people\/([^/?#]+)/i`. -/
def salesPeoplePattern : String := "linkedin.com/sales/people/"

/-- `ContactMatcherService.normalizeLinkedInUrl`: canonical form from the
public id if present, otherwise rewrite of the three known URL shapes to
the canonical `/in/` form, otherwise the raw URL unchanged. -/
def normalizeLinkedInUrl (profileUrl publicId : Option String) : Option String :=
  if jsTruthy publicId then
    some ("https://www.linkedin.com/in/" ++ publicId.getD "")
  else if !jsTruthy profileUrl then none
  else
    let u := profileUrl.getD ""
    match regexCaptureCI inPattern u with
    | some pid => some ("https://www.linkedin.com/in/" ++ pid)
    | none =>
      match regexCaptureCI salesLeadPattern u with
      | some pid => some ("https://www.linkedin.com/in/" ++ pid)
      | none =>
        match regexCaptureCI salesPeoplePattern u with
        | some pid => some ("https://www.linkedin.com/in/" ++ pid)
        | none => some u

/-- `ContactMatcherService.getLinkedInUrlVariations`: the raw URL plus, when a
public id can be extracted, the six scheme/www/trailing-slash variations,
deduplicated preserving first occurrences. -/
def getLinkedInUrlVariations (url : String) : List String :=
  let variations :=
    match regexCaptureCI inPattern url with
    | some publicId =>
      [url,
       "https://www.linkedin.com/in/" ++ publicId,
       "https://linkedin.com/in/" ++ publicId,
       "http://www.linkedin.com/in/" ++ publicId,
       "http://linkedin.com/in/" ++ publicId,
       "https://www.linkedin.com/in/" ++ publicId ++ "/",
       "linkedin.com/in/" ++ publicId]
    | none => [url]
  dedupKeepFirst [] variations

end ContactMatcherService

namespace ContactMergerService

/-- `ContactMergerService.normalizeLinkedInUrl`: same as the matcher version
but it only recognizes the `/in/` URL shape. -/
def normalizeLinkedInUrl (profileUrl publicId : Option String) : Option String :=
  if jsTruthy publicId then
    some ("https://www.linkedin.com/in/" ++ publicId.getD "")
  else if !jsTruthy profileUrl then none
  else
    let u := profileUrl.getD ""
    match regexCaptureCI ContactMatcherService.inPattern u with
    | some pid => some ("https://www.linkedin.com/in/" ++ pid)
    | none => some u

end ContactMergerService

/-! ## Data model -/

/-- The `connection` object of a `CONNECTION_ACCEPTED` webhook payload
(outreach-sync.dto.ts).  Required schema fields are plain, optional ones are
`Option`.  The `work_experience`/`education` fields are `z.any()`; they are
modelled as optional strings, which is enough for the merge policy (the code
only moves them around). -/
structure Connection where
  id : String
  urn_id : String
  public_id : Option String
  name : String
  first_name : Option String
  last_name : Option String
  headline : Option String
  profile_url : String
  profile_pic_url : Option String
  company : Option String
  job_title : Option String
  location : Option String
  industry : Option String
  email : Option String
  phone : Option String
  connected_on : String
  skills : Option (List String)
  languages : Option (List String)
  work_experience : Option String
  education : Option String
  deriving DecidableEq, Repr

/-- The JSON `custom_fields` column of a contact row, split into the keys this
integration owns and the remaining user-owned keys (`other`).  `none` means
the key is absent from the JSON object (a JavaScript `undefined` value is
dropped when the object is serialized for storage). -/
structure CustomFields where
  linkedinUrnId : Option String := none
  linkedinPublicId : Option String := none
  linkedinConnected : Option String := none
  linkedinHeadline : Option String := none
  linkedinLocation : Option String := none
  linkedinProfilePhoto : Option String := none
  linkedinIndustry : Option String := none
  linkedinSkills : Option (List String) := none
  linkedinLanguages : Option (List String) := none
  linkedinWorkExperience : Option String := none
  linkedinEducation : Option String := none
  syncedFromOutreach : Option Bool := none
  lastSyncedAt : Option String := none
  other : List (String × String) := []
  deriving DecidableEq, Repr, Inhabited

/-- A row of `crm.contacts`.  `leadStatus`, `owner` and `priority` are the
user-managed fields called out by the specification; they exist in the
storage schema (which is outside src) and are included so that frame
conditions about them can be stated. -/
structure Contact where
  id : String
  organizationId : String
  firstName : String
  lastName : String
  email : Option String
  phone : Option String
  jobTitle : Option String
  linkedinUrl : Option String
  profileImageUrl : Option String
  isLead : Bool
  leadSource : Option String
  leadStatus : Option String
  owner : Option String
  priority : Option String
  customFields : CustomFields
  deriving DecidableEq, Repr

/-- The `existing_data` snapshot carried inside a `MatchResult`
(contact-matcher.service.ts, interface `MatchResult`). -/
structure ExistingData where
  id : String
  firstName : String
  lastName : String
  email : Option String
  linkedinUrl : Option String
  customFields : CustomFields
  deriving DecidableEq, Repr, Inhabited

/-- Match kinds of the cascade (plus `NEW` for a miss). -/
inductive MatchType where
  | URN_ID
  | LINKEDIN_URL
  | EMAIL
  | NEW
  deriving DecidableEq, Repr

/-- `MatchResult` of `ContactMatcherService.findMatch`. -/
structure MatchResult where
  found : Bool
  contact_id : Option String := none
  match_type : Option MatchType := none
  existing_data : Option ExistingData := none
  deriving DecidableEq, Repr

/-- The `action` field of a `SyncResultDto`. -/
inductive SyncAction where
  | created
  | updated
  | skipped
  deriving DecidableEq, Repr

/-- `SyncResultDto` (outreach-sync.dto.ts). -/
structure SyncResult where
  success : Bool
  action : SyncAction
  contact_id : Option String := none
  match_type : Option MatchType := none
  message : Option String := none
  error : Option String := none
  deriving DecidableEq, Repr

/-- A row of the activity table, as written by
`ContactMergerService.createSyncActivity` (provenance kept flat). -/
structure Activity where
  organizationId : String
  contactId : String
  type : String
  title : String
  description : String
  source : String
  connectionId : String
  linkedinUrl : String
  connectedOn : Option String
  deriving DecidableEq, Repr

/-- The storage state visible to this core: the contact rows, the appended
activity rows, and a counter from which fresh contact ids are minted (the
real store generates ids; only freshness matters here). -/
structure DB where
  contacts : List Contact
  activities : List Activity
  nextId : Nat
  deriving Repr

/-- The id the store assigns to the next created contact row. -/
def DB.freshId (db : DB) : String := "c" ++ Nat.repr db.nextId

/-! ## Identity Matcher (contact-matcher.service.ts) -/

namespace ContactMatcherService

/-- Projection of a contact row to the `existing_data` snapshot selected by
each of the three lookup queries. -/
def contactToExisting (ct : Contact) : ExistingData :=
  ⟨ct.id, ct.firstName, ct.lastName, ct.email, ct.linkedinUrl, ct.customFields⟩

/-- `matchByUrnId`: first contact of the organization whose
`custom_fields->>'linkedinUrnId'` equals the URN (raw SQL, LIMIT 1). -/
def matchByUrnId (store : List Contact) (organizationId urnId : String) :
    Option ExistingData :=
  (store.find? fun ct =>
    decide (ct.organizationId = organizationId ∧
      ct.customFields.linkedinUrnId = some urnId)).map contactToExisting

/-- `matchByLinkedInUrl`: first contact of the organization whose stored
`linkedinUrl` is one of the generated variations (`findFirst` with `in`). -/
def matchByLinkedInUrl (store : List Contact) (organizationId linkedinUrl : String) :
    Option ExistingData :=
  let urlVariations := getLinkedInUrlVariations linkedinUrl
  (store.find? fun ct =>
    decide (ct.organizationId = organizationId ∧
      ∃ v ∈ urlVariations, ct.linkedinUrl = some v)).map contactToExisting

/-- `matchByEmail`: first contact of the organization whose stored email
equals the lowercased inbound email. -/
def matchByEmail (store : List Contact) (organizationId email : String) :
    Option ExistingData :=
  (store.find? fun ct =>
    decide (ct.organizationId = organizationId ∧
      ct.email = some (toLowerCase email))).map contactToExisting

/-- `findMatch`: the priority cascade URN → URL → email, first hit wins. -/
def findMatch (store : List Contact) (organizationId : String) (c : Connection) :
    MatchResult :=
  match matchByUrnId store organizationId c.urn_id with
  | some urnMatch =>
    { found := true
      contact_id := some urnMatch.id
      match_type := some .URN_ID
      existing_data := some urnMatch }
  | none =>
    let normalizedUrl := normalizeLinkedInUrl (some c.profile_url) c.public_id
    match (if jsTruthy normalizedUrl then
        matchByLinkedInUrl store organizationId (normalizedUrl.getD "")
      else none) with
    | some urlMatch =>
      { found := true
        contact_id := some urlMatch.id
        match_type := some .LINKEDIN_URL
        existing_data := some urlMatch }
    | none =>
      match (if jsTruthy c.email then
          matchByEmail store organizationId (c.email.getD "")
        else none) with
      | some emailMatch =>
        { found := true
          contact_id := some emailMatch.id
          match_type := some .EMAIL
          existing_data := some emailMatch }
      | none => { found := false, match_type := some .NEW }

end ContactMatcherService

/-! ## Merge Policy Engine (contact-merger.service.ts) -/

namespace ContactMergerService

/-- Model of JavaScript `String.prototype.trim`: strip leading and trailing
whitespace. -/
def trimString (s : String) : String :=
  ⟨((s.data.dropWhile Char.isWhitespace).reverse.dropWhile
      Char.isWhitespace).reverse⟩

/-- Splitting at every whitespace character (pieces between consecutive
separators are empty). -/
def splitAtWhitespace (s : String) : List String :=
  go s.data []
where
  go : List Char → List Char → List String
    | [], acc => [⟨acc.reverse⟩]
    | ch :: rest, acc =>
      if ch.isWhitespace then ⟨acc.reverse⟩ :: go rest []
      else go rest (ch :: acc)

/-- `trimmed.split(/\s+/)`: whitespace-run separated tokens; JavaScript
splits the empty string into one empty token. -/
def splitWhitespaceRuns (s : String) : List String :=
  let parts := (splitAtWhitespace s).filter (fun p => decide (p ≠ ""))
  if parts.isEmpty then [""] else parts

/-- Joining with single spaces, the model of `parts.slice(1).join(' ')`. -/
def joinWithSpaces : List String → String
  | [] => ""
  | [p] => p
  | p :: rest => p ++ " " ++ joinWithSpaces rest

/-- `parseName`: explicit first/last name win; otherwise the full name is
trimmed and split on whitespace runs (a single token becomes the first name
with empty last name, several tokens make the head the first name and the
rest, joined with spaces, the last name). -/
def parseName (fullName : String) (firstName lastName : Option String) :
    String × String :=
  if jsTruthy firstName && jsTruthy lastName then
    (firstName.getD "", lastName.getD "")
  else
    match splitWhitespaceRuns (trimString fullName) with
    | [p] => (p, "")
    | p :: rest => (p, joinWithSpaces rest)
    | [] => ("", "")

/-- The `linkedinData` object built by `createContact` (after the explicit
removal of `undefined` values). -/
def createLinkedinData (c : Connection) (now : String) : CustomFields where
  linkedinUrnId := some c.urn_id
  linkedinPublicId := c.public_id
  linkedinConnected := some c.connected_on
  linkedinHeadline := c.headline
  linkedinLocation := c.location
  linkedinProfilePhoto := c.profile_pic_url
  linkedinIndustry := c.industry
  linkedinSkills := some (c.skills.getD [])
  linkedinLanguages := some (c.languages.getD [])
  linkedinWorkExperience := c.work_experience
  linkedinEducation := c.education
  syncedFromOutreach := some true
  lastSyncedAt := some now
  other := []

/-- The `linkedinData` object built by `mergeContact`: spread of the existing
custom fields, then the integration keys overwritten.  Keys written with a
JavaScript `undefined` value (absent inbound field, no fallback) are dropped
when the object is serialized to JSON for storage, which erases the
previously stored value. -/
def mergeLinkedinData (existingCustomFields : CustomFields) (c : Connection)
    (now : String) : CustomFields where
  linkedinUrnId := some c.urn_id
  linkedinPublicId := c.public_id
  linkedinConnected := some c.connected_on
  linkedinHeadline := c.headline
  linkedinLocation := c.location
  linkedinProfilePhoto := c.profile_pic_url
  linkedinIndustry := c.industry
  linkedinSkills :=
    some ((jsOrArr c.skills existingCustomFields.linkedinSkills).getD [])
  linkedinLanguages :=
    some ((jsOrArr c.languages existingCustomFields.linkedinLanguages).getD [])
  linkedinWorkExperience :=
    jsOr c.work_experience existingCustomFields.linkedinWorkExperience
  linkedinEducation :=
    jsOr c.education existingCustomFields.linkedinEducation
  syncedFromOutreach := some true
  lastSyncedAt := some now
  other := existingCustomFields.other

/-- The `updateData` object assembled by `mergeContact`.  A `none` field is a
key that is absent from the update (or carries a JavaScript `undefined`
value, which the storage client skips); such a field is left unchanged by
the update.  The user-managed fields have no counterpart here: the source
never assigns them. -/
structure UpdateData where
  profileImageUrl : Option (Option String) := none
  linkedinUrl : Option (Option String) := none
  firstName : Option String := none
  lastName : Option String := none
  email : Option (Option String) := none
  jobTitle : Option String := none
  customFields : Option CustomFields := none
  deriving DecidableEq, Repr

/-- Lines 442-489 of the merger: the update built from the match snapshot
`existing`, the freshly-read current job title, the inbound record and the
`forceUpdate` flag. -/
def mergeUpdateData (existing : ExistingData) (currentJobTitle : Option String)
    (c : Connection) (forceUpdate : Bool) (now : String) : UpdateData where
  profileImageUrl := some (jsOr c.profile_pic_url existing.linkedinUrl)
  linkedinUrl :=
    some (jsOr (normalizeLinkedInUrl (some c.profile_url) c.public_id)
      existing.linkedinUrl)
  firstName :=
    if forceUpdate || !jsTruthy (some existing.firstName) then
      some (parseName c.name c.first_name c.last_name).1
    else none
  lastName :=
    if forceUpdate || !jsTruthy (some existing.lastName) then
      some (parseName c.name c.first_name c.last_name).2
    else none
  email :=
    if forceUpdate || !jsTruthy existing.email then
      some (jsOr (c.email.map toLowerCase) existing.email)
    else none
  jobTitle :=
    if forceUpdate || !jsTruthy currentJobTitle then c.job_title else none
  customFields := some (mergeLinkedinData existing.customFields c now)

/-- Effect of a Prisma `update` carrying `u` on one contact row. -/
def applyUpdate (ct : Contact) (u : UpdateData) : Contact :=
  { ct with
    profileImageUrl := u.profileImageUrl.getD ct.profileImageUrl
    linkedinUrl := u.linkedinUrl.getD ct.linkedinUrl
    firstName := u.firstName.getD ct.firstName
    lastName := u.lastName.getD ct.lastName
    email := u.email.getD ct.email
    jobTitle :=
      match u.jobTitle with
      | some t => some t
      | none => ct.jobTitle
    customFields := u.customFields.getD ct.customFields }

/-- `update` on the store: rewrite the row with the given id. -/
def updateContactInStore (store : List Contact) (id : String) (u : UpdateData) :
    List Contact :=
  store.map fun ct => if ct.id = id then applyUpdate ct u else ct

/-- The contact row written by `createContact`.  `owner` and `priority` are
not assigned by the create call and take the storage defaults. -/
def newContact (id organizationId : String) (c : Connection) (now : String) :
    Contact where
  id := id
  organizationId := organizationId
  firstName := (parseName c.name c.first_name c.last_name).1
  lastName := (parseName c.name c.first_name c.last_name).2
  email := jsOrNull (c.email.map toLowerCase)
  phone := jsOrNull c.phone
  jobTitle := jsOrNull c.job_title
  linkedinUrl := normalizeLinkedInUrl (some c.profile_url) c.public_id
  profileImageUrl := jsOrNull c.profile_pic_url
  isLead := true
  leadSource := some "LINKEDIN_OUTREACH"
  leadStatus := some "NEW"
  owner := none
  priority := none
  customFields := createLinkedinData c now

/-- `createContact`.  The storage write may fail: either injected
(`writeFails`, standing for any thrown storage error) or because a
storage-layer uniqueness guard on the integration identifier rejects a
duplicate URN (`uniqueGuard` — the hardening assumed by the specification).
Any failure is caught and reported as a `skipped` outcome. -/
def createContact (store : List Contact) (nextId : Nat) (organizationId : String)
    (c : Connection) (now : String) (uniqueGuard writeFails : Bool) :
    List Contact × Nat × SyncResult :=
  let violates := uniqueGuard && store.any fun ct =>
    decide (ct.organizationId = organizationId ∧
      ct.customFields.linkedinUrnId = some c.urn_id)
  if writeFails || violates then
    (store, nextId,
      { success := false, action := .skipped, error := some "create failed" })
  else
    let id := "c" ++ Nat.repr nextId
    let parsed := parseName c.name c.first_name c.last_name
    (store ++ [newContact id organizationId c now], nextId + 1,
      { success := true
        action := .created
        contact_id := some id
        match_type := some .NEW
        message := some ("Created new contact: " ++ parsed.1 ++ " " ++ parsed.2) })

/-- `mergeContact`.  Follows the source: falsy `contact_id` or missing
`existing_data` short-circuit to `skipped`; otherwise the current job title
is read back, the update is assembled and written (an update on an id that
no longer exists throws in the storage client and is caught, as is any
injected write failure). -/
def mergeContact (store : List Contact) (matchResult : MatchResult)
    (c : Connection) (forceUpdate : Bool) (now : String) (writeFails : Bool) :
    List Contact × SyncResult :=
  if !jsTruthy matchResult.contact_id || matchResult.existing_data.isNone then
    (store,
      { success := false, action := .skipped,
        error := some "No existing contact to merge with" })
  else
    let cid := matchResult.contact_id.getD ""
    let existing := matchResult.existing_data.getD default
    match store.find? (fun ct => decide (ct.id = cid)) with
    | none =>
      (store,
        { success := false, action := .skipped,
          error := some "Record to update not found" })
    | some current =>
      if writeFails then
        (store,
          { success := false, action := .skipped,
            error := some "update failed" })
      else
        let u := mergeUpdateData existing current.jobTitle c forceUpdate now
        let parsed := parseName c.name c.first_name c.last_name
        (updateContactInStore store cid u,
          { success := true
            action := .updated
            contact_id := some cid
            match_type := matchResult.match_type
            message :=
              some ("Updated existing contact: " ++ parsed.1 ++ " " ++ parsed.2) })

/-- `createSyncActivity`: best-effort append of an audit row; failure is
swallowed and leaves the store unchanged. -/
def createSyncActivity (activities : List Activity) (organizationId contactId : String)
    (action : SyncAction) (c : Connection) (activityFails : Bool) : List Activity :=
  if activityFails then activities
  else
    activities ++
      [{ organizationId := organizationId
         contactId := contactId
         type := "NOTE"
         title :=
           if action = .created then "Contact created from LinkedIn connection"
           else "Contact updated from LinkedIn sync"
         description :=
           "LinkedIn connection accepted. Profile: " ++ c.name
         source := "OUTREACH_SYNC"
         connectionId := c.id
         linkedinUrl := c.profile_url
         connectedOn := some c.connected_on }]

end ContactMergerService

/-! ## Webhook controller (outreach-sync.controller.ts) -/

namespace OutreachSyncController

/-- The parsed `CONNECTION_ACCEPTED` payload as used by the controller: the
secret, the organization scope (`payload.source.organization_id`) and the
connection object. -/
structure ConnectionAcceptedPayload where
  webhook_secret : String
  organization_id : String
  connection : Connection
  deriving DecidableEq, Repr

/-- HTTP-level rejections thrown by the controller. -/
inductive HttpError where
  | badRequest
  | unauthorized
  deriving DecidableEq, Repr

/-- `verifyWebhookSecret`: timing-safe comparison of the configured secret
with the provided one: `false` on byte-length mismatch, byte equality
otherwise; any comparison failure is caught and yields `false`. -/
def verifyWebhookSecret (webhookSecret providedSecret : String) : Bool :=
  let expected := utf8Bytes webhookSecret
  let provided := utf8Bytes providedSecret
  if expected.length ≠ provided.length then false
  else expected == provided

/-- The controller guard around `verifyWebhookSecret`: an empty configured
secret disables authentication (the check is bypassed). -/
def secretCheckPasses (webhookSecret providedSecret : String) : Bool :=
  if jsTruthy (some webhookSecret) then
    verifyWebhookSecret webhookSecret providedSecret
  else true

/-- The constructor logs a configuration warning exactly when the configured
secret is empty/unset. -/
def constructorLogsDisabledWarning (webhookSecret : String) : Bool :=
  !jsTruthy (some webhookSecret)

/-- Per-record failure injection: whether the contact write throws and
whether the activity write throws, for this record. -/
structure FailureModel where
  writeFails : Bool := false
  activityFails : Bool := false
  deriving DecidableEq, Repr

/-- One pipeline run after auth and validation: match, then merge or create
(`forceUpdate` is passed as `false` by both endpoints), then the best-effort
activity append for successful outcomes. -/
def processConnection (db : DB) (organizationId : String) (c : Connection)
    (now : String) (uniqueGuard : Bool) (fm : FailureModel) : DB × SyncResult :=
  let matchResult := ContactMatcherService.findMatch db.contacts organizationId c
  let step : List Contact × Nat × SyncResult :=
    if matchResult.found then
      let mres :=
        ContactMergerService.mergeContact db.contacts matchResult c false now
          fm.writeFails
      (mres.1, db.nextId, mres.2)
    else
      ContactMergerService.createContact db.contacts db.nextId organizationId c
        now uniqueGuard fm.writeFails
  let db' : DB := { db with contacts := step.1, nextId := step.2.1 }
  let result := step.2.2
  let db'' : DB :=
    if result.success && jsTruthy result.contact_id then
      { db' with
        activities :=
          ContactMergerService.createSyncActivity db'.activities organizationId
            (result.contact_id.getD "") result.action c fm.activityFails }
    else db'
  (db'', result)

/-- `handleConnectionAccepted`: schema validation of the raw body first
(`safeParse`, a failed parse is a 400), then the secret check (a mismatch is
a 401), then the pipeline.  The raw body is modelled as the result of the
parse: `none` for a body the schema rejects. -/
def handleConnectionAccepted (db : DB) (webhookSecret : String)
    (rawPayload : Option ConnectionAcceptedPayload) (now : String)
    (uniqueGuard : Bool) (fm : FailureModel) :
    Except HttpError (DB × SyncResult) :=
  match rawPayload with
  | none => .error .badRequest
  | some payload =>
    if jsTruthy (some webhookSecret) &&
        !verifyWebhookSecret webhookSecret payload.webhook_secret then
      .error .unauthorized
    else
      .ok (processConnection db payload.organization_id payload.connection now
        uniqueGuard fm)

/-- Outcome shape of the batch endpoint. -/
structure BatchOutcome where
  total : Nat
  created : Nat
  updated : Nat
  skipped : Nat
  results : List SyncResult
  deriving DecidableEq, Repr

/-- The per-record loop of `handleBatchSync`: each record runs the full
pipeline; every storage failure is already converted to a `skipped` outcome
inside the pipeline, so the loop always pushes one outcome per record and
continues. -/
def runBatchAux (db : DB) (organizationId : String) (now : String)
    (uniqueGuard : Bool) : List (Connection × FailureModel) → DB × List SyncResult
  | [] => (db, [])
  | (c, fm) :: rest =>
    let p := processConnection db organizationId c now uniqueGuard fm
    let q := runBatchAux p.1 organizationId now uniqueGuard rest
    (q.1, p.2 :: q.2)

/-- The incremental counters of `handleBatchSync` (`created++` on a created
outcome, `updated++` on an updated one, `skipped++` otherwise). -/
def countAction (results : List SyncResult) (a : SyncAction) : Nat :=
  results.countP fun r => decide (r.action = a)

/-- `handleBatchSync` after its secret and shape guards: run every record
sequentially and aggregate the counters. -/
def handleBatchSync (db : DB) (organizationId : String) (now : String)
    (uniqueGuard : Bool) (items : List (Connection × FailureModel)) :
    DB × BatchOutcome :=
  let run := runBatchAux db organizationId now uniqueGuard items
  (run.1,
    { total := items.length
      created := countAction run.2 .created
      updated := countAction run.2 .updated
      skipped := countAction run.2 .skipped
      results := run.2 })

end OutreachSyncController

/-! ## Concrete sample values used by witnesses and counterexamples -/

/-- The §8 example record of the specification. -/
def adaConnection : Connection where
  id := "11111111-1111-1111-1111-111111111111"
  urn_id := "u1"
  public_id := none
  name := "Ada Lovelace"
  first_name := none
  last_name := none
  headline := none
  profile_url := "https://www.linkedin.com/in/ada"
  profile_pic_url := none
  company := none
  job_title := none
  location := none
  industry := none
  email := some "ada@x.com"
  phone := none
  connected_on := "2026-01-01T00:00:00Z"
  skills := none
  languages := none
  work_experience := none
  education := none

/-- A stored contact previously enriched with a headline. -/
def oldContact : Contact where
  id := "x1"
  organizationId := "org"
  firstName := "Greta"
  lastName := "Stone"
  email := some "greta@x.com"
  phone := none
  jobTitle := some "CTO"
  linkedinUrl := some "https://www.linkedin.com/in/greta"
  profileImageUrl := some "https://cdn.example/old.jpg"
  isLead := true
  leadSource := some "LINKEDIN_OUTREACH"
  leadStatus := some "CONTACTED"
  owner := some "user-7"
  priority := some "HIGH"
  customFields :=
    { linkedinUrnId := some "g1"
      linkedinHeadline := some "Old headline"
      linkedinSkills := some ["lean"] }

/-- The match snapshot for `oldContact`. -/
def oldExisting : ExistingData :=
  ContactMatcherService.contactToExisting oldContact

/-- A URN match result pointing at `oldContact`. -/
def oldMatch : MatchResult where
  found := true
  contact_id := some oldContact.id
  match_type := some .URN_ID
  existing_data := some oldExisting

/-- An inbound record for `oldContact`'s URN that carries no headline, no
photo and no email. -/
def bareConnection : Connection where
  id := "22222222-2222-2222-2222-222222222222"
  urn_id := "g1"
  public_id := none
  name := "Greta Stone"
  first_name := none
  last_name := none
  headline := none
  profile_url := "https://www.linkedin.com/in/greta"
  profile_pic_url := none
  company := none
  job_title := none
  location := none
  industry := none
  email := none
  phone := none
  connected_on := "2026-02-02T00:00:00Z"
  skills := none
  languages := none
  work_experience := none
  education := none

/-! ## C7 — Authenticator -/

/-- C7: `verifyWebhookSecret` is total and boolean-valued (it is a function
into `Bool`, never raising): secrets of different byte length compare
`false`; equal secrets compare `true`; an empty configured secret bypasses
the check at the call sites, and the constructor logs the configuration
warning exactly in that case. -/
theorem C7_authenticator :
    (∀ a b : String, (utf8Bytes a).length ≠ (utf8Bytes b).length →
      OutreachSyncController.verifyWebhookSecret a b = false) ∧
    (∀ s : String, OutreachSyncController.verifyWebhookSecret s s = true) ∧
    (∀ p : String, OutreachSyncController.secretCheckPasses "" p = true) ∧
    OutreachSyncController.constructorLogsDisabledWarning "" = true := by
  refine ⟨?_, ?_, ?_, by decide⟩
  · intro a b h
    simp [OutreachSyncController.verifyWebhookSecret, h]
  · intro s
    simp [OutreachSyncController.verifyWebhookSecret]
  · intro p
    simp [OutreachSyncController.secretCheckPasses, jsTruthy]

/-- Witness for C7 at concrete secrets of byte lengths 3 and 2. -/
theorem C7_witness :
    OutreachSyncController.verifyWebhookSecret "abc" "ab" = false :=
  C7_authenticator.1 "abc" "ab" (by decide)

/-! ## C9 — validation versus authentication order -/

/-- C9 counterexample: a request whose body fails schema validation is
rejected as a 400 Bad Request even when the configured secret is nonempty
and the request could not have authenticated — not as 401, contrary to the
claimed Authenticator-first ordering. -/
theorem C9_counterexample :
    OutreachSyncController.handleConnectionAccepted ⟨[], [], 0⟩ "s3cret" none
      "t0" true {} = .error .badRequest := rfl

/-- C9 amended: in `handleConnectionAccepted` schema validation runs before
the Authenticator, so a malformed body is rejected 400 regardless of the
secret; for a well-formed body, a failing secret check is rejected 401
before any matching or merge logic runs (no store effect). -/
theorem C9_amended_order :
    (∀ (db : DB) (secret now : String) (guard : Bool)
      (fm : OutreachSyncController.FailureModel),
      OutreachSyncController.handleConnectionAccepted db secret none now guard fm
        = .error .badRequest) ∧
    (∀ (db : DB) (secret : String)
      (p : OutreachSyncController.ConnectionAcceptedPayload)
      (now : String) (guard : Bool) (fm : OutreachSyncController.FailureModel),
      secret ≠ "" →
      OutreachSyncController.verifyWebhookSecret secret p.webhook_secret = false →
      OutreachSyncController.handleConnectionAccepted db secret (some p) now
        guard fm = .error .unauthorized) := by
  constructor
  · intro db secret now guard fm
    rfl
  · intro db secret p now guard fm hsecret hbad
    simp [OutreachSyncController.handleConnectionAccepted, jsTruthy, hsecret, hbad]

/-- Witness for C9 at a concrete well-formed payload with a wrong secret. -/
theorem C9_witness :
    OutreachSyncController.handleConnectionAccepted ⟨[], [], 0⟩ "s3cret"
      (some ⟨"wrong", "org", adaConnection⟩) "t0" true {}
      = .error .unauthorized :=
  C9_amended_order.2 ⟨[], [], 0⟩ "s3cret" ⟨"wrong", "org", adaConnection⟩ "t0"
    true {} (by decide) (by decide)

/-! ## C2 — integration-sourced field policy -/

/-- C2 counterexample: merging an inbound record that carries no headline
into a contact whose stored headline custom field is nonempty does NOT
retain the stored value — the key is overwritten with the absent value and
dropped from the stored JSON. -/
theorem C2_counterexample :
    oldContact.customFields.linkedinHeadline = some "Old headline" ∧
    bareConnection.headline = none ∧
    ((ContactMergerService.mergeContact [oldContact] oldMatch bareConnection
        false "t9" false).1.map fun ct => ct.customFields.linkedinHeadline)
      = [none] := by decide

/-- C2 amended: integration-sourced fields are written on every merge
regardless of forceUpdate, with the inbound value.  An absent inbound value
is retained only for skills, languages, work history and education (the
fields with an explicit fallback); for headline, location, profile photo,
industry (and the always-present connected-date) the inbound value replaces
the stored key outright, clearing it when absent; and the top-level profile
image falls back to the stored LinkedIn URL, not to the previous photo. -/
theorem C2_amended_policy (ecf : CustomFields) (ex : ExistingData)
    (cur : Option String) (c : Connection) (force : Bool) (now : String) :
    let m := ContactMergerService.mergeLinkedinData ecf c now
    let u := ContactMergerService.mergeUpdateData ex cur c force now
    u.customFields = some (ContactMergerService.mergeLinkedinData
      ex.customFields c now) ∧
    m.linkedinHeadline = c.headline ∧
    m.linkedinLocation = c.location ∧
    m.linkedinProfilePhoto = c.profile_pic_url ∧
    m.linkedinIndustry = c.industry ∧
    m.linkedinConnected = some c.connected_on ∧
    (c.skills = none → m.linkedinSkills = some (ecf.linkedinSkills.getD [])) ∧
    (c.languages = none →
      m.linkedinLanguages = some (ecf.linkedinLanguages.getD [])) ∧
    (c.work_experience = none →
      m.linkedinWorkExperience = ecf.linkedinWorkExperience) ∧
    (c.education = none → m.linkedinEducation = ecf.linkedinEducation) ∧
    u.profileImageUrl = some (jsOr c.profile_pic_url ex.linkedinUrl) := by
  refine ⟨rfl, rfl, rfl, rfl, rfl, rfl, ?_, ?_, ?_, ?_, rfl⟩
  · intro h
    simp [ContactMergerService.mergeLinkedinData, jsOrArr, h]
  · intro h
    simp [ContactMergerService.mergeLinkedinData, jsOrArr, h]
  · intro h
    simp [ContactMergerService.mergeLinkedinData, jsOr, jsTruthy, h]
  · intro h
    simp [ContactMergerService.mergeLinkedinData, jsOr, jsTruthy, h]

/-- Witness for C2 at a concrete merge with absent inbound skills: the
stored skills list is retained. -/
theorem C2_witness :
    (ContactMergerService.mergeLinkedinData oldContact.customFields
      bareConnection "t9").linkedinSkills = some ["lean"] := by
  obtain ⟨-, -, -, -, -, -, hsk, -⟩ :=
    C2_amended_policy oldContact.customFields oldExisting (some "CTO")
      bareConnection false "t9"
  exact (hsk rfl).trans (by decide)

/-! ## C5 — user-managed fields are never written -/

/-- C5: the merge policy engine never writes the user-managed top-level
fields.  The update object assembled by a merge has no assignment for
leadStatus, owner or priority (`applyUpdate` provably cannot change them),
every merge leaves those fields of every stored row unchanged, and a create
leaves all pre-existing rows entirely unchanged. -/
theorem C5_user_managed_frame :
    (∀ (store : List Contact) (mr : MatchResult) (c : Connection)
      (force : Bool) (now : String) (wf : Bool),
      ((ContactMergerService.mergeContact store mr c force now wf).1.map
        fun ct => (ct.leadStatus, ct.owner, ct.priority)) =
        store.map fun ct => (ct.leadStatus, ct.owner, ct.priority)) ∧
    (∀ (ct : Contact) (u : ContactMergerService.UpdateData),
      (ContactMergerService.applyUpdate ct u).leadStatus = ct.leadStatus ∧
      (ContactMergerService.applyUpdate ct u).owner = ct.owner ∧
      (ContactMergerService.applyUpdate ct u).priority = ct.priority) ∧
    (∀ (store : List Contact) (nextId : Nat) (org : String) (c : Connection)
      (now : String) (g w : Bool),
      (ContactMergerService.createContact store nextId org c now g w).1.take
        store.length = store) := by
  refine ⟨?_, fun ct u => ⟨rfl, rfl, rfl⟩, ?_⟩
  · intro store mr c force now wf
    by_cases h1 : (!jsTruthy mr.contact_id || mr.existing_data.isNone) = true
    · simp [ContactMergerService.mergeContact, h1]
    · cases hfind : store.find?
          (fun ct => decide (ct.id = mr.contact_id.getD "")) with
      | none =>
        simp [ContactMergerService.mergeContact, h1, hfind]
      | some cur =>
        by_cases hwf : wf
        · simp [ContactMergerService.mergeContact, h1, hfind, hwf]
        · simp only [ContactMergerService.mergeContact, h1, hfind, hwf,
            Bool.false_eq_true, if_false, if_true, eq_self_iff_true,
            ContactMergerService.updateContactInStore, List.map_map]
          refine List.map_congr_left fun a _ => ?_
          by_cases hid : a.id = mr.contact_id.getD ""
          · simp [hid, Function.comp, ContactMergerService.applyUpdate]
          · simp [hid, Function.comp]
  · intro store nextId org c now g w
    simp only [ContactMergerService.createContact]
    split
    · simp
    · simp [List.take_left]

/-! ## C4 — basic identity field policy -/

/-- C4: basic identity fields (first name, last name, email, job title) are
overwritten only if the stored value is empty/falsy or forceUpdate is set;
in particular a non-empty stored first name survives a merge with
forceUpdate=false and is replaced by the parsed inbound name with
forceUpdate=true. -/
theorem C4_basic_field_policy (ex : ExistingData) (cur : Option String)
    (c : Connection) (force : Bool) (now : String) (ct : Contact)
    (hfn : ct.firstName = ex.firstName) (hln : ct.lastName = ex.lastName)
    (hem : ct.email = ex.email) (hjt : ct.jobTitle = cur) :
    let u := ContactMergerService.mergeUpdateData ex cur c force now
    let ct' := ContactMergerService.applyUpdate ct u
    (force = false → ct.firstName ≠ "" → ct'.firstName = ct.firstName) ∧
    (force = true → ct'.firstName =
      (ContactMergerService.parseName c.name c.first_name c.last_name).1) ∧
    (force = false → ct.lastName ≠ "" → ct'.lastName = ct.lastName) ∧
    (force = true → ct'.lastName =
      (ContactMergerService.parseName c.name c.first_name c.last_name).2) ∧
    (ct'.firstName ≠ ct.firstName → force = true ∨ ct.firstName = "") ∧
    (ct'.lastName ≠ ct.lastName → force = true ∨ ct.lastName = "") ∧
    (ct'.email ≠ ct.email → force = true ∨ jsTruthy ct.email = false) ∧
    (ct'.jobTitle ≠ ct.jobTitle → force = true ∨ jsTruthy ct.jobTitle = false)
    := by
  intro u ct'
  have hfirst : ct'.firstName = (u.firstName).getD ct.firstName := rfl
  have hlast : ct'.lastName = (u.lastName).getD ct.lastName := rfl
  have hemail : ct'.email = (u.email).getD ct.email := rfl
  refine ⟨?_, ?_, ?_, ?_, ?_, ?_, ?_, ?_⟩
  · intro hf hne
    rw [hfn] at hne
    simp [hfirst, u, ContactMergerService.mergeUpdateData, hf, jsTruthy, hne]
  · intro hf
    simp [hfirst, u, ContactMergerService.mergeUpdateData, hf]
  · intro hf hne
    rw [hln] at hne
    simp [hlast, u, ContactMergerService.mergeUpdateData, hf, jsTruthy, hne]
  · intro hf
    simp [hlast, u, ContactMergerService.mergeUpdateData, hf]
  · intro hch
    by_contra hcon
    push_neg at hcon
    obtain ⟨hf, hne⟩ := hcon
    rw [hfn] at hne
    exact hch (by
      simp [hfirst, u, ContactMergerService.mergeUpdateData, hf, jsTruthy, hne])
  · intro hch
    by_contra hcon
    push_neg at hcon
    obtain ⟨hf, hne⟩ := hcon
    rw [hln] at hne
    exact hch (by
      simp [hlast, u, ContactMergerService.mergeUpdateData, hf, jsTruthy, hne])
  · intro hch
    by_contra hcon
    push_neg at hcon
    obtain ⟨hf, htr⟩ := hcon
    rw [hem] at htr
    refine hch ?_
    have hu : u.email = none := by
      simp [u, ContactMergerService.mergeUpdateData, hf,
        Bool.not_eq_false] at htr ⊢
      simp [htr]
    simp [hemail, hu]
  · intro hch
    by_contra hcon
    push_neg at hcon
    obtain ⟨hf, htr⟩ := hcon
    rw [hjt] at htr
    refine hch ?_
    have hu : u.jobTitle = none := by
      simp [u, ContactMergerService.mergeUpdateData, hf,
        Bool.not_eq_false] at htr ⊢
      simp [htr]
    show (match u.jobTitle with
      | some t => some t
      | none => ct.jobTitle) = ct.jobTitle
    simp [hu]

/-- Witness for C4: merging the bare inbound record onto `oldContact` with
forceUpdate=false leaves the non-empty first name unchanged. -/
theorem C4_witness :
    (ContactMergerService.applyUpdate oldContact
      (ContactMergerService.mergeUpdateData oldExisting (some "CTO")
        bareConnection false "t9")).firstName = oldContact.firstName :=
  (C4_basic_field_policy oldExisting (some "CTO") bareConnection false "t9"
    oldContact rfl rfl rfl rfl).1 rfl (by decide)

/-! ## C10 — emails are lowercased before storage -/

/-- A string with no ASCII uppercase characters. -/
def noUpperAscii (s : String) : Bool :=
  s.data.all fun ch => decide (¬(65 ≤ ch.toNat ∧ ch.toNat ≤ 90))

theorem toNat_ofNat_of_lt (m : Nat) (hm : m < 55296) :
    (Char.ofNat m).toNat = m := by
  unfold Char.ofNat
  have hv : m.isValidChar := Or.inl hm
  rw [dif_pos hv]
  rfl

theorem toLower_toNat_not_upper (ch : Char) :
    ¬(65 ≤ (Char.toLower ch).toNat ∧ (Char.toLower ch).toNat ≤ 90) := by
  unfold Char.toLower
  dsimp only
  split
  · next h =>
    have hb : ch.toNat + 32 < 55296 := by
      omega
    rw [toNat_ofNat_of_lt (ch.toNat + 32) hb]
    omega
  · next h =>
    omega

theorem toLowerCase_noUpper (s : String) : noUpperAscii (toLowerCase s) = true := by
  simp only [toLowerCase, noUpperAscii, List.all_eq_true, List.mem_map,
    decide_eq_true_eq]
  rintro x ⟨a, _, rfl⟩
  exact toLower_toNat_not_upper a

/-- C10: every email this core writes is the lowercased inbound email or is
left as it was: a created contact stores the lowercased inbound email (or
null), a merge that changes the stored email changes it to the lowercased
inbound email, and that is exactly the invariant under which
`matchByEmail`'s comparison against the lowercased inbound email is
case-insensitive for contacts written by this core. -/
theorem C10_email_lowercase_invariant :
    (∀ (id org : String) (c : Connection) (now : String),
      (ContactMergerService.newContact id org c now).email
          = jsOrNull (c.email.map toLowerCase) ∧
      ∀ e, (ContactMergerService.newContact id org c now).email = some e →
        noUpperAscii e = true) ∧
    (∀ (ex : ExistingData) (cur : Option String) (c : Connection)
      (force : Bool) (now : String) (ct : Contact), ct.email = ex.email →
      (ContactMergerService.applyUpdate ct
          (ContactMergerService.mergeUpdateData ex cur c force now)).email
        ≠ ct.email →
      ∃ e0, c.email = some e0 ∧
        (ContactMergerService.applyUpdate ct
          (ContactMergerService.mergeUpdateData ex cur c force now)).email
          = some (toLowerCase e0)) ∧
    (∀ (store : List Contact) (org : String) (ct : Contact) (e e2 : String),
      ct ∈ store → ct.organizationId = org →
      ct.email = some (toLowerCase e) → toLowerCase e2 = toLowerCase e →
      (ContactMatcherService.matchByEmail store org e2).isSome = true) := by
  refine ⟨?_, ?_, ?_⟩
  · intro id org c now
    refine ⟨rfl, ?_⟩
    intro e he
    cases hc : c.email with
    | none =>
      rw [show (ContactMergerService.newContact id org c now).email
          = jsOrNull (c.email.map toLowerCase) from rfl, hc] at he
      simp [jsOrNull, jsTruthy] at he
    | some e0 =>
      rw [show (ContactMergerService.newContact id org c now).email
          = jsOrNull (c.email.map toLowerCase) from rfl, hc] at he
      simp only [Option.map_some, jsOrNull] at he
      split at he
      · cases he
        exact toLowerCase_noUpper e0
      · cases he
  · intro ex cur c force now ct hceq hch
    have hemail : (ContactMergerService.applyUpdate ct
        (ContactMergerService.mergeUpdateData ex cur c force now)).email
        = ((ContactMergerService.mergeUpdateData ex cur c force now).email).getD
            ct.email := rfl
    by_cases hcond : (force || !jsTruthy ex.email) = true
    · have hu : (ContactMergerService.mergeUpdateData ex cur c force now).email
          = some (jsOr (c.email.map toLowerCase) ex.email) := by
        simp [ContactMergerService.mergeUpdateData, hcond]
      rw [hemail, hu] at hch ⊢
      by_cases ht : jsTruthy (c.email.map toLowerCase) = true
      · cases hc : c.email with
        | none => rw [hc] at ht; simp [jsTruthy] at ht
        | some e0 =>
          refine ⟨e0, rfl, ?_⟩
          rw [hc] at ht
          have ht2 : jsTruthy (some (toLowerCase e0)) = true := by
            simpa using ht
          simp [jsOr, ht2]
      · rw [jsOr, if_neg (by simpa using ht), ← hceq] at hch
        simp at hch
    · have hu : (ContactMergerService.mergeUpdateData ex cur c force now).email
          = none := by
        simp only [ContactMergerService.mergeUpdateData]
        rw [if_neg (by simpa using hcond)]
      rw [hemail, hu] at hch
      simp at hch
  · intro store org ct e e2 hmem horg hemail hlow
    unfold ContactMatcherService.matchByEmail
    rw [Option.isSome_map']
    cases hfind : store.find?
        (fun ct => decide (ct.organizationId = org ∧
          ct.email = some (toLowerCase e2))) with
    | some v => rfl
    | none =>
      exfalso
      rw [List.find?_eq_none] at hfind
      have h2 := hfind ct hmem
      rw [decide_eq_true_eq] at h2
      exact h2 ⟨horg, by rw [hemail, hlow]⟩

/-- Witness for C10: a contact stored by the core with a lowercased email is
found by `matchByEmail` for a differently-cased inbound email. -/
theorem C10_witness :
    (ContactMatcherService.matchByEmail [oldContact] "org"
      "GRETA@X.COM").isSome = true :=
  C10_email_lowercase_invariant.2.2 [oldContact] "org" oldContact
    "Greta@X.com" "GRETA@X.COM" (by simp) (by decide) (by decide) (by decide)

/-! ## C1 — cascade order, URN first -/

/-- C1: whenever some contact of the organization stores the inbound URN as
its integration identifier, `findMatch` reports a URN_ID hit (whatever the
record's email or URL contain); when that contact is the unique URN holder
the result resolves to it; and an EMAIL result can only arise when the URN
lookup and the URL step both missed and the record carries a truthy email. -/
theorem C1_urn_match_first_hit (store : List Contact) (org : String)
    (c : Connection) (A : Contact) (hA : A ∈ store)
    (horg : A.organizationId = org)
    (hurn : A.customFields.linkedinUrnId = some c.urn_id) :
    (ContactMatcherService.findMatch store org c).found = true ∧
    (ContactMatcherService.findMatch store org c).match_type = some .URN_ID ∧
    (∃ ex, (ContactMatcherService.findMatch store org c).existing_data = some ex ∧
      ex.customFields.linkedinUrnId = some c.urn_id) ∧
    ((∀ B ∈ store, B.organizationId = org →
        B.customFields.linkedinUrnId = some c.urn_id → B = A) →
      (ContactMatcherService.findMatch store org c).contact_id = some A.id) ∧
    (∀ (store2 : List Contact) (c2 : Connection),
      (ContactMatcherService.findMatch store2 org c2).match_type = some .EMAIL →
      ContactMatcherService.matchByUrnId store2 org c2.urn_id = none ∧
      (let nu := ContactMatcherService.normalizeLinkedInUrl
          (some c2.profile_url) c2.public_id
       (if jsTruthy nu then
          ContactMatcherService.matchByLinkedInUrl store2 org (nu.getD "")
        else none) = none) ∧
      jsTruthy c2.email = true) := by
  have hfind : ∃ ct0, store.find? (fun ct =>
      decide (ct.organizationId = org ∧
        ct.customFields.linkedinUrnId = some c.urn_id)) = some ct0 := by
    cases hf : store.find? (fun ct =>
        decide (ct.organizationId = org ∧
          ct.customFields.linkedinUrnId = some c.urn_id)) with
    | some ct0 => exact ⟨ct0, rfl⟩
    | none =>
      exfalso
      rw [List.find?_eq_none] at hf
      have h2 := hf A hA
      rw [decide_eq_true_eq] at h2
      exact h2 ⟨horg, hurn⟩
  obtain ⟨ct0, hct0⟩ := hfind
  have hP := List.find?_some hct0
  rw [decide_eq_true_eq] at hP
  have hmem0 := List.mem_of_find?_eq_some hct0
  have hurnmatch : ContactMatcherService.matchByUrnId store org c.urn_id
      = some (ContactMatcherService.contactToExisting ct0) := by
    unfold ContactMatcherService.matchByUrnId
    rw [hct0]
    rfl
  have hres : ContactMatcherService.findMatch store org c =
      { found := true
        contact_id := some (ContactMatcherService.contactToExisting ct0).id
        match_type := some .URN_ID
        existing_data := some (ContactMatcherService.contactToExisting ct0) } := by
    unfold ContactMatcherService.findMatch
    rw [hurnmatch]
  refine ⟨by rw [hres], by rw [hres], ?_, ?_, ?_⟩
  · exact ⟨ContactMatcherService.contactToExisting ct0, by rw [hres], hP.2⟩
  · intro huniq
    rw [hres]
    have h3 : ct0 = A := huniq ct0 hmem0 hP.1 hP.2
    rw [h3]
    rfl
  · intro store2 c2 hmt
    unfold ContactMatcherService.findMatch at hmt
    cases hu : ContactMatcherService.matchByUrnId store2 org c2.urn_id with
    | some v => rw [hu] at hmt; simp at hmt
    | none =>
      rw [hu] at hmt
      dsimp only at hmt
      cases hurl : (if jsTruthy (ContactMatcherService.normalizeLinkedInUrl
          (some c2.profile_url) c2.public_id) then
            ContactMatcherService.matchByLinkedInUrl store2 org
              ((ContactMatcherService.normalizeLinkedInUrl
                (some c2.profile_url) c2.public_id).getD "")
          else none) with
      | some v => rw [hurl] at hmt; simp at hmt
      | none =>
        rw [hurl] at hmt
        by_cases jt : jsTruthy c2.email = true
        · exact ⟨rfl, hurl, jt⟩
        · rw [Bool.not_eq_true] at jt
          rw [if_neg (by simp [jt])] at hmt
          simp at hmt

/-- Witness for C1: against a store holding `oldContact` as unique URN
holder, the bare record resolves to it with kind URN_ID. -/
theorem C1_witness :
    (ContactMatcherService.findMatch [oldContact] "org" bareConnection).found
      = true ∧
    (ContactMatcherService.findMatch [oldContact] "org"
      bareConnection).contact_id = some "x1" := by
  obtain ⟨h1, -, -, h4, -⟩ :=
    C1_urn_match_first_hit [oldContact] "org" bareConnection oldContact
      (by simp) (by decide) (by decide)
  refine ⟨h1, ?_⟩
  have h5 := h4 ?_
  · exact h5.trans (by decide)
  · intro B hB h6 h7
    simpa using hB

/-! ## C6 — batch counting and per-record isolation -/

theorem mergeContact_writeFails (store : List Contact) (mr : MatchResult)
    (c : Connection) (force : Bool) (now : String) :
    (ContactMergerService.mergeContact store mr c force now true).2.action
      = .skipped ∧
    (ContactMergerService.mergeContact store mr c force now true).2.error.isSome
      = true := by
  simp only [ContactMergerService.mergeContact]
  split
  · exact ⟨rfl, rfl⟩
  · cases hfind : store.find? (fun ct => decide (ct.id = mr.contact_id.getD ""))
      with
    | none => simp [hfind]
    | some cur => simp [hfind]

theorem createContact_writeFails (store : List Contact) (nextId : Nat)
    (org : String) (c : Connection) (now : String) (guard : Bool) :
    (ContactMergerService.createContact store nextId org c now guard
      true).2.2.action = .skipped ∧
    (ContactMergerService.createContact store nextId org c now guard
      true).2.2.error.isSome = true := by
  simp [ContactMergerService.createContact]

theorem processConnection_writeFails (db : DB) (org : String) (c : Connection)
    (now : String) (guard : Bool) (fm : OutreachSyncController.FailureModel)
    (h : fm.writeFails = true) :
    (OutreachSyncController.processConnection db org c now guard fm).2.action
      = .skipped ∧
    (OutreachSyncController.processConnection db org c now guard
      fm).2.error.isSome = true := by
  unfold OutreachSyncController.processConnection
  dsimp only
  rw [h]
  by_cases hf : (ContactMatcherService.findMatch db.contacts org c).found = true
  · rw [if_pos hf]
    exact mergeContact_writeFails db.contacts _ c false now
  · rw [if_neg hf]
    exact createContact_writeFails db.contacts db.nextId org c now guard

theorem runBatchAux_length (org now : String) (guard : Bool) :
    ∀ (items : List (Connection × OutreachSyncController.FailureModel)) (db : DB),
      (OutreachSyncController.runBatchAux db org now guard items).2.length
        = items.length := by
  intro items
  induction items with
  | nil => intro db; rfl
  | cons hd tl ih =>
    intro db
    obtain ⟨c, fm⟩ := hd
    simp only [OutreachSyncController.runBatchAux, List.length_cons]
    rw [ih]

theorem runBatchAux_isolation (org now : String) (guard : Bool) :
    ∀ (items : List (Connection × OutreachSyncController.FailureModel)) (db : DB),
      ∀ pr ∈ items.zip
        (OutreachSyncController.runBatchAux db org now guard items).2,
        pr.1.2.writeFails = true →
        pr.2.action = .skipped ∧ pr.2.error.isSome = true := by
  intro items
  induction items with
  | nil => intro db pr hpr; simp at hpr
  | cons hd tl ih =>
    intro db pr hpr hw
    obtain ⟨c, fm⟩ := hd
    simp only [OutreachSyncController.runBatchAux, List.zip_cons_cons,
      List.mem_cons] at hpr
    rcases hpr with hpr | hpr
    · subst hpr
      exact processConnection_writeFails db org c now guard fm hw
    · exact ih _ pr hpr hw

theorem countAction_sum (rs : List SyncResult) :
    OutreachSyncController.countAction rs .created +
      OutreachSyncController.countAction rs .updated +
      OutreachSyncController.countAction rs .skipped = rs.length := by
  induction rs with
  | nil => rfl
  | cons r rs ih =>
    cases hr : r.action <;>
      simp [OutreachSyncController.countAction, List.countP_cons, hr] at ih ⊢ <;>
      omega

/-- C6: the batch handler reports `total = N`, derives the three counters
strictly from the `action` of each outcome so that they sum to `N`, returns
one outcome per record, and a record whose storage write throws yields a
`skipped` outcome carrying an error message while all other records are
still processed. -/
theorem C6_batch_counts_isolation (db : DB) (org now : String) (guard : Bool)
    (items : List (Connection × OutreachSyncController.FailureModel)) :
    (OutreachSyncController.handleBatchSync db org now guard items).2.total
      = items.length ∧
    (OutreachSyncController.handleBatchSync db org now guard items).2.created +
      (OutreachSyncController.handleBatchSync db org now guard items).2.updated +
      (OutreachSyncController.handleBatchSync db org now guard items).2.skipped
      = items.length ∧
    (OutreachSyncController.handleBatchSync db org now guard
      items).2.results.length = items.length ∧
    (OutreachSyncController.handleBatchSync db org now guard items).2.created
      = OutreachSyncController.countAction
        (OutreachSyncController.handleBatchSync db org now guard
          items).2.results .created ∧
    (∀ pr ∈ items.zip (OutreachSyncController.handleBatchSync db org now guard
        items).2.results,
      pr.1.2.writeFails = true →
      pr.2.action = .skipped ∧ pr.2.error.isSome = true) := by
  refine ⟨rfl, ?_, ?_, rfl, ?_⟩
  · rw [show (OutreachSyncController.handleBatchSync db org now guard
        items).2.created = OutreachSyncController.countAction
          (OutreachSyncController.runBatchAux db org now guard items).2 .created
      from rfl]
    rw [show (OutreachSyncController.handleBatchSync db org now guard
        items).2.updated = OutreachSyncController.countAction
          (OutreachSyncController.runBatchAux db org now guard items).2 .updated
      from rfl]
    rw [show (OutreachSyncController.handleBatchSync db org now guard
        items).2.skipped = OutreachSyncController.countAction
          (OutreachSyncController.runBatchAux db org now guard items).2 .skipped
      from rfl]
    rw [countAction_sum]
    exact runBatchAux_length org now guard items db
  · exact runBatchAux_length org now guard items db
  · exact runBatchAux_isolation org now guard items db

/-- Witness for C6: a concrete two-record batch whose second record's write
throws ends with one created and one skipped-with-error outcome. -/
theorem C6_witness :
    ((OutreachSyncController.handleBatchSync ⟨[], [], 0⟩ "org" "t0" true
      [(adaConnection, {}), (bareConnection, ⟨true, false⟩)]).2.results.map
        fun r => (r.action, r.error.isSome)) =
      [(.created, false), (.skipped, true)] := by
  have h := (C6_batch_counts_isolation ⟨[], [], 0⟩ "org" "t0" true
    [(adaConnection, {}), (bareConnection, ⟨true, false⟩)]).2.2.2.2
  have h2 := h ((bareConnection, ⟨true, false⟩),
    ((OutreachSyncController.handleBatchSync ⟨[], [], 0⟩ "org" "t0" true
      [(adaConnection, {}), (bareConnection, ⟨true, false⟩)]).2.results.getD 1
        ⟨false, .skipped, none, none, none, none⟩)) (by decide) (by decide)
  decide

/-! ## C3 — idempotent convergence -/

theorem applyUpdate_id (ct : Contact) (u : ContactMergerService.UpdateData) :
    (ContactMergerService.applyUpdate ct u).id = ct.id := rfl

/-- Re-applying the merge update built from the same match snapshot (with the
job title re-read after the first write) does not change a row further. -/
theorem mergeUpdate_row_idem (ex : ExistingData) (c : Connection)
    (force : Bool) (now : String) (j : Option String) (ctX : Contact) :
    ContactMergerService.applyUpdate
      (ContactMergerService.applyUpdate ctX
        (ContactMergerService.mergeUpdateData ex j c force now))
      (ContactMergerService.mergeUpdateData ex
        (match (ContactMergerService.mergeUpdateData ex j c force now).jobTitle
          with
          | some t => some t
          | none => j) c force now)
      = ContactMergerService.applyUpdate ctX
          (ContactMergerService.mergeUpdateData ex j c force now) := by
  cases ctX
  simp only [ContactMergerService.applyUpdate, ContactMergerService.mergeUpdateData]
  by_cases hf : force = true
  · subst hf
    simp only [Bool.true_or, if_true, Option.getD_some]
    cases hjob : c.job_title with
    | none => simp
    | some t => simp
  · rw [Bool.not_eq_true] at hf
    subst hf
    simp only [Bool.false_or]
    by_cases hj : jsTruthy j = true
    · simp only [hj, Bool.not_true, Bool.false_eq_true, if_false]
      by_cases h1 : (!jsTruthy (some ex.firstName)) = true <;>
        by_cases h2 : (!jsTruthy (some ex.lastName)) = true <;>
          by_cases h3 : (!jsTruthy ex.email) = true <;>
            simp [h1, h2, h3, hj]
    · rw [Bool.not_eq_true] at hj
      simp only [hj, Bool.not_false, if_true]
      cases hjob : c.job_title with
      | none =>
        simp only [hj, Bool.not_false, if_true]
        by_cases h1 : (!jsTruthy (some ex.firstName)) = true <;>
          by_cases h2 : (!jsTruthy (some ex.lastName)) = true <;>
            by_cases h3 : (!jsTruthy ex.email) = true <;>
              simp [h1, h2, h3, hj]
      | some t =>
        by_cases ht : jsTruthy (some t) = true
        · simp only [ht, Bool.not_true, Bool.false_eq_true, if_false]
          by_cases h1 : (!jsTruthy (some ex.firstName)) = true <;>
            by_cases h2 : (!jsTruthy (some ex.lastName)) = true <;>
              by_cases h3 : (!jsTruthy ex.email) = true <;>
                simp [h1, h2, h3, ht]
        · rw [Bool.not_eq_true] at ht
          simp only [ht, Bool.not_false, if_true]
          by_cases h1 : (!jsTruthy (some ex.firstName)) = true <;>
            by_cases h2 : (!jsTruthy (some ex.lastName)) = true <;>
              by_cases h3 : (!jsTruthy ex.email) = true <;>
                simp [h1, h2, h3, ht]

theorem find?_updateContactInStore (cid : String)
    (u : ContactMergerService.UpdateData) :
    ∀ (store : List Contact) (cur : Contact),
      store.find? (fun ct => decide (ct.id = cid)) = some cur →
      (ContactMergerService.updateContactInStore store cid u).find?
        (fun ct => decide (ct.id = cid))
        = some (ContactMergerService.applyUpdate cur u) := by
  intro store
  induction store with
  | nil => intro cur h; simp at h
  | cons hd tl ih =>
    intro cur h
    by_cases hid : hd.id = cid
    · rw [List.find?_cons_of_pos _ (by simp [hid])] at h
      cases h
      unfold ContactMergerService.updateContactInStore
      simp only [List.map_cons]
      rw [List.find?_cons_of_pos _ (by simp [hid, applyUpdate_id]), if_pos hid]
    · rw [List.find?_cons_of_neg _ (by simp [hid])] at h
      have h2 := ih cur h
      unfold ContactMergerService.updateContactInStore at h2 ⊢
      simp only [List.map_cons]
      rw [List.find?_cons_of_neg _ (by simp [hid])]
      exact h2

theorem mergeContact_idem (store : List Contact) (mr : MatchResult)
    (c : Connection) (force : Bool) (now : String) :
    (ContactMergerService.mergeContact
      (ContactMergerService.mergeContact store mr c force now false).1
      mr c force now false).1 =
    (ContactMergerService.mergeContact store mr c force now false).1 := by
  by_cases h1 : (!jsTruthy mr.contact_id || mr.existing_data.isNone) = true
  · simp [ContactMergerService.mergeContact, h1]
  · cases hfind : store.find? (fun ct => decide (ct.id = mr.contact_id.getD ""))
      with
    | none =>
      rw [show (ContactMergerService.mergeContact store mr c force now false).1
          = store by simp [ContactMergerService.mergeContact, h1, hfind]]
      simp [ContactMergerService.mergeContact, h1, hfind]
    | some cur =>
      have hp1 : (ContactMergerService.mergeContact store mr c force now
          false).1 = ContactMergerService.updateContactInStore store
            (mr.contact_id.getD "")
            (ContactMergerService.mergeUpdateData (mr.existing_data.getD default)
              cur.jobTitle c force now) := by
        simp [ContactMergerService.mergeContact, h1, hfind]
      have hfind2 := find?_updateContactInStore (mr.contact_id.getD "")
        (ContactMergerService.mergeUpdateData (mr.existing_data.getD default)
          cur.jobTitle c force now) store cur hfind
      rw [hp1]
      simp only [ContactMergerService.mergeContact, h1, Bool.false_eq_true,
        if_false, hfind2]
      unfold ContactMergerService.updateContactInStore
      rw [List.map_map]
      refine List.map_congr_left fun a _ => ?_
      by_cases hid : a.id = mr.contact_id.getD ""
      · simp only [Function.comp_apply, if_pos hid, applyUpdate_id]
        exact mergeUpdate_row_idem (mr.existing_data.getD default) c force now
          cur.jobTitle a
      · simp [Function.comp_apply, if_neg hid]

theorem createContact_guard_idem (store : List Contact) (n : Nat) (org : String)
    (c : Connection) (now : String)
    (h : (ContactMergerService.createContact store n org c now true
      false).2.2.action = .created) :
    (ContactMergerService.createContact
      (ContactMergerService.createContact store n org c now true false).1
      (ContactMergerService.createContact store n org c now true false).2.1
      org c now true false).1
      = (ContactMergerService.createContact store n org c now true false).1 ∧
    (ContactMergerService.createContact
      (ContactMergerService.createContact store n org c now true false).1
      (ContactMergerService.createContact store n org c now true false).2.1
      org c now true false).2.2.action = .skipped := by
  by_cases hv : ∃ x ∈ store, x.organizationId = org ∧
      x.customFields.linkedinUrnId = some c.urn_id
  · exfalso
    simp [ContactMergerService.createContact, hv] at h
  · have hp1 : (ContactMergerService.createContact store n org c now true
        false).1 = store ++
          [ContactMergerService.newContact ("c" ++ Nat.repr n) org c now] := by
      simp [ContactMergerService.createContact, hv]
    refine ⟨?_, ?_⟩ <;>
    · simp [ContactMergerService.createContact, hp1, hv]
      rw [if_pos ⟨rfl, rfl⟩]

theorem processConnection_contacts (db : DB) (org : String) (c : Connection)
    (now : String) (guard : Bool) (fm : OutreachSyncController.FailureModel) :
    (OutreachSyncController.processConnection db org c now guard fm).1.contacts
      = (if (ContactMatcherService.findMatch db.contacts org c).found = true then
          (ContactMergerService.mergeContact db.contacts
            (ContactMatcherService.findMatch db.contacts org c) c false now
            fm.writeFails).1
        else
          (ContactMergerService.createContact db.contacts db.nextId org c now
            guard fm.writeFails).1) := by
  unfold OutreachSyncController.processConnection
  dsimp only
  split <;> split <;> rfl

theorem processConnection_result (db : DB) (org : String) (c : Connection)
    (now : String) (guard : Bool) (fm : OutreachSyncController.FailureModel) :
    (OutreachSyncController.processConnection db org c now guard fm).2
      = (if (ContactMatcherService.findMatch db.contacts org c).found = true then
          (ContactMergerService.mergeContact db.contacts
            (ContactMatcherService.findMatch db.contacts org c) c false now
            fm.writeFails).2
        else
          (ContactMergerService.createContact db.contacts db.nextId org c now
            guard fm.writeFails).2.2) := by
  unfold OutreachSyncController.processConnection
  dsimp only
  split <;> rfl

theorem string_cons_ne_empty (s : String) : ("c" ++ s) ≠ "" := by
  intro h
  have h2 : ("c" ++ s).data = ("" : String).data := by rw [h]
  rw [String.data_append] at h2
  simp at h2

theorem countP_comp_update_zero (org urn cid : String)
    (u : ContactMergerService.UpdateData) (l : List Contact)
    (hid : ∀ a ∈ l, a.id ≠ cid)
    (hnp : ∀ a ∈ l, ¬(a.organizationId = org ∧
      a.customFields.linkedinUrnId = some urn)) :
    List.countP ((fun ct => decide (ct.organizationId = org ∧
        ct.customFields.linkedinUrnId = some urn)) ∘
      (fun ct => if ct.id = cid then ContactMergerService.applyUpdate ct u
        else ct)) l = 0 := by
  rw [List.countP_eq_zero]
  intro a ha
  simp only [Function.comp_apply, if_neg (hid a ha)]
  simpa using hnp a ha

/-- Running the pipeline on a record with no prior match creates one contact;
running it again on the identical record finds that contact by URN and
updates it, creating nothing further. -/
theorem processConnection_twice (db : DB) (org : String) (c : Connection)
    (now1 now2 : String)
    (hmiss : (ContactMatcherService.findMatch db.contacts org c).found = false)
    (hfresh : ∀ ct ∈ db.contacts, ct.id ≠ db.freshId) :
    (OutreachSyncController.processConnection db org c now1 true {}).2.action
      = .created ∧
    (OutreachSyncController.processConnection db org c now1 true
      {}).1.contacts.length = db.contacts.length + 1 ∧
    (OutreachSyncController.processConnection
      (OutreachSyncController.processConnection db org c now1 true {}).1 org c
      now2 true {}).2.action = .updated ∧
    (OutreachSyncController.processConnection
      (OutreachSyncController.processConnection db org c now1 true {}).1 org c
      now2 true {}).2.match_type = some .URN_ID ∧
    (OutreachSyncController.processConnection
      (OutreachSyncController.processConnection db org c now1 true {}).1 org c
      now2 true {}).1.contacts.length =
      (OutreachSyncController.processConnection db org c now1 true
        {}).1.contacts.length ∧
    (OutreachSyncController.processConnection
      (OutreachSyncController.processConnection db org c now1 true {}).1 org c
      now2 true {}).1.contacts.countP (fun ct =>
        decide (ct.organizationId = org ∧
          ct.customFields.linkedinUrnId = some c.urn_id)) = 1 := by
  set nc := ContactMergerService.newContact ("c" ++ Nat.repr db.nextId) org c
    now1 with hnc
  have hidne : ("c" ++ Nat.repr db.nextId) ≠ "" := string_cons_ne_empty _
  -- the first run misses every cascade step, so in particular its URN lookup
  have hurnnone : ContactMatcherService.matchByUrnId db.contacts org c.urn_id
      = none := by
    cases hu : ContactMatcherService.matchByUrnId db.contacts org c.urn_id with
    | none => rfl
    | some v =>
      exfalso
      unfold ContactMatcherService.findMatch at hmiss
      rw [hu] at hmiss
      simp at hmiss
  have hfindnone : db.contacts.find? (fun ct =>
      decide (ct.organizationId = org ∧
        ct.customFields.linkedinUrnId = some c.urn_id)) = none := by
    unfold ContactMatcherService.matchByUrnId at hurnnone
    exact Option.map_eq_none'.mp hurnnone
  have hnop := List.find?_eq_none.mp hfindnone
  have hnop2 : ∀ x ∈ db.contacts, ¬(x.organizationId = org ∧
      x.customFields.linkedinUrnId = some c.urn_id) := by
    intro x hx
    simpa using hnop x hx
  have hnoex : ¬∃ x ∈ db.contacts, x.organizationId = org ∧
      x.customFields.linkedinUrnId = some c.urn_id := by
    rintro ⟨x, hx, hx2⟩
    exact hnop2 x hx hx2
  -- first run: the create path appends exactly one row
  have hr1 := processConnection_result db org c now1 true {}
  rw [if_neg (by rw [hmiss]; simp)] at hr1
  have hr1a : (OutreachSyncController.processConnection db org c now1 true
      {}).2.action = .created := by
    rw [hr1]
    simp [ContactMergerService.createContact, hnoex]
  have hc1 := processConnection_contacts db org c now1 true {}
  rw [if_neg (by rw [hmiss]; simp)] at hc1
  have hc1b : (OutreachSyncController.processConnection db org c now1 true
      {}).1.contacts = db.contacts ++ [nc] := by
    rw [hc1]
    simp [ContactMergerService.createContact, hnoex, hnc]
  have hlen1 : (OutreachSyncController.processConnection db org c now1 true
      {}).1.contacts.length = db.contacts.length + 1 := by
    rw [hc1b]
    simp
  -- second run: the URN lookup finds the created row
  have hpnc : (fun ct => decide (ct.organizationId = org ∧
      ct.customFields.linkedinUrnId = some c.urn_id)) nc = true := by
    rw [decide_eq_true_eq]
    exact ⟨rfl, rfl⟩
  have hfind2 : ((OutreachSyncController.processConnection db org c now1 true
      {}).1.contacts).find? (fun ct =>
        decide (ct.organizationId = org ∧
          ct.customFields.linkedinUrnId = some c.urn_id)) = some nc := by
    rw [hc1b, List.find?_append, hfindnone, Option.none_or]
    exact List.find?_cons_of_pos _ hpnc
  have hurn2 : ContactMatcherService.matchByUrnId
      (OutreachSyncController.processConnection db org c now1 true
        {}).1.contacts org c.urn_id
      = some (ContactMatcherService.contactToExisting nc) := by
    unfold ContactMatcherService.matchByUrnId
    rw [hfind2]
    rfl
  have hfm2 : ContactMatcherService.findMatch
      (OutreachSyncController.processConnection db org c now1 true
        {}).1.contacts org c
      = { found := true
          contact_id := some (ContactMatcherService.contactToExisting nc).id
          match_type := some .URN_ID
          existing_data := some (ContactMatcherService.contactToExisting nc) }
      := by
    unfold ContactMatcherService.findMatch
    rw [hurn2]
  -- the id of the created row is fresh in the prior store
  have hidne2 : ¬(nc.id = "") := hidne
  have hffresh : db.contacts.find? (fun ct => decide (ct.id = nc.id))
      = none := by
    rw [List.find?_eq_none]
    intro x hx
    simp only [decide_eq_true_eq]
    exact hfresh x hx
  have hfindid : ((OutreachSyncController.processConnection db org c now1 true
      {}).1.contacts).find? (fun ct => decide (ct.id = nc.id)) = some nc := by
    rw [hc1b, List.find?_append, hffresh, Option.none_or]
    exact List.find?_cons_of_pos _ (decide_eq_true rfl)
  have hr2 := processConnection_result
    (OutreachSyncController.processConnection db org c now1 true {}).1 org c
    now2 true {}
  rw [hfm2, if_pos rfl] at hr2
  have hr2a : (OutreachSyncController.processConnection
      (OutreachSyncController.processConnection db org c now1 true {}).1 org c
      now2 true {}).2.action = .updated := by
    rw [hr2]
    simp [ContactMergerService.mergeContact, jsTruthy, hidne2, hfindid,
      ContactMatcherService.contactToExisting]
  have hr2b : (OutreachSyncController.processConnection
      (OutreachSyncController.processConnection db org c now1 true {}).1 org c
      now2 true {}).2.match_type = some .URN_ID := by
    rw [hr2]
    simp [ContactMergerService.mergeContact, jsTruthy, hidne2, hfindid,
      ContactMatcherService.contactToExisting]
  have hc2 := processConnection_contacts
    (OutreachSyncController.processConnection db org c now1 true {}).1 org c
    now2 true {}
  rw [hfm2, if_pos rfl] at hc2
  have hc2b : (OutreachSyncController.processConnection
      (OutreachSyncController.processConnection db org c now1 true {}).1 org c
      now2 true {}).1.contacts
      = ContactMergerService.updateContactInStore
          (OutreachSyncController.processConnection db org c now1 true
            {}).1.contacts nc.id
          (ContactMergerService.mergeUpdateData
            (ContactMatcherService.contactToExisting nc) nc.jobTitle c false
            now2) := by
    rw [hc2]
    simp [ContactMergerService.mergeContact, jsTruthy, hidne2, hfindid,
      ContactMatcherService.contactToExisting]
  have hlen2 : (OutreachSyncController.processConnection
      (OutreachSyncController.processConnection db org c now1 true {}).1 org c
      now2 true {}).1.contacts.length =
      (OutreachSyncController.processConnection db org c now1 true
        {}).1.contacts.length := by
    rw [hc2b]
    unfold ContactMergerService.updateContactInStore
    rw [List.length_map]
  have hcount : (OutreachSyncController.processConnection
      (OutreachSyncController.processConnection db org c now1 true {}).1 org c
      now2 true {}).1.contacts.countP (fun ct =>
        decide (ct.organizationId = org ∧
          ct.customFields.linkedinUrnId = some c.urn_id)) = 1 := by
    rw [hc2b, hc1b]
    unfold ContactMergerService.updateContactInStore
    rw [List.countP_map, List.countP_append]
    rw [countP_comp_update_zero org c.urn_id nc.id _ db.contacts
      (fun a ha => hfresh a ha) hnop2]
    simp [List.countP_cons, hnc, ContactMergerService.applyUpdate,
      ContactMergerService.mergeUpdateData, ContactMergerService.newContact,
      ContactMergerService.mergeLinkedinData]
  exact ⟨hr1a, hlen1, hr2a, hr2b, hlen2, hcount⟩

/-- C3: merge and create are idempotent at equal prior state: re-merging the
same record with the same match snapshot leaves the store exactly as after
the first merge; with the storage uniqueness guard, a second create of the
same URN is rejected as skipped and adds nothing; and the full pipeline run
twice on an identical unmatched payload creates exactly one contact, the
second run ending as `updated` with match kind URN_ID and no growth. -/
theorem C3_idempotency :
    (∀ (store : List Contact) (mr : MatchResult) (c : Connection)
      (force : Bool) (now : String),
      (ContactMergerService.mergeContact
        (ContactMergerService.mergeContact store mr c force now false).1
        mr c force now false).1 =
      (ContactMergerService.mergeContact store mr c force now false).1) ∧
    (∀ (store : List Contact) (n : Nat) (org : String) (c : Connection)
      (now : String),
      (ContactMergerService.createContact store n org c now true
        false).2.2.action = .created →
      (ContactMergerService.createContact
        (ContactMergerService.createContact store n org c now true false).1
        (ContactMergerService.createContact store n org c now true false).2.1
        org c now true false).1
        = (ContactMergerService.createContact store n org c now true false).1 ∧
      (ContactMergerService.createContact
        (ContactMergerService.createContact store n org c now true false).1
        (ContactMergerService.createContact store n org c now true false).2.1
        org c now true false).2.2.action = .skipped) ∧
    (∀ (db : DB) (org : String) (c : Connection) (now1 now2 : String),
      (ContactMatcherService.findMatch db.contacts org c).found = false →
      (∀ ct ∈ db.contacts, ct.id ≠ db.freshId) →
      (OutreachSyncController.processConnection db org c now1 true {}).2.action
        = .created ∧
      (OutreachSyncController.processConnection db org c now1 true
        {}).1.contacts.length = db.contacts.length + 1 ∧
      (OutreachSyncController.processConnection
        (OutreachSyncController.processConnection db org c now1 true {}).1 org
        c now2 true {}).2.action = .updated ∧
      (OutreachSyncController.processConnection
        (OutreachSyncController.processConnection db org c now1 true {}).1 org
        c now2 true {}).2.match_type = some .URN_ID ∧
      (OutreachSyncController.processConnection
        (OutreachSyncController.processConnection db org c now1 true {}).1 org
        c now2 true {}).1.contacts.length =
        (OutreachSyncController.processConnection db org c now1 true
          {}).1.contacts.length ∧
      (OutreachSyncController.processConnection
        (OutreachSyncController.processConnection db org c now1 true {}).1 org
        c now2 true {}).1.contacts.countP (fun ct =>
          decide (ct.organizationId = org ∧
            ct.customFields.linkedinUrnId = some c.urn_id)) = 1) :=
  ⟨mergeContact_idem, createContact_guard_idem,
    fun db org c now1 now2 hmiss hfresh =>
      processConnection_twice db org c now1 now2 hmiss hfresh⟩

/-- Witness for C3: the §8 example against an empty store — the second run
is an update with kind URN_ID. -/
theorem C3_witness :
    (OutreachSyncController.processConnection
      (OutreachSyncController.processConnection ⟨[], [], 0⟩ "org" adaConnection
        "t1" true {}).1 "org" adaConnection "t2" true {}).2.action
      = .updated := by
  obtain ⟨-, -, h3, -⟩ :=
    C3_idempotency.2.2 ⟨[], [], 0⟩ "org" adaConnection "t1" "t2" (by decide)
      (by intro ct h; simp at h)
  exact h3

/-! ## C8 — URL normalization idempotence -/

theorem ciMatchAt_append (p l r : List Char) (h : p.length ≤ l.length) :
    ciMatchAt p (l ++ r) = ciMatchAt p l := by
  unfold ciMatchAt
  rw [List.take_append_of_le_length h]

theorem scanCapture_append_skip (p : List Char) :
    ∀ (pre rest : List Char),
      (∀ l ∈ pre.tails, l ≠ [] → ciMatchAt p (l ++ rest) = false) →
      scanCapture p (pre ++ rest) = scanCapture p rest := by
  intro pre
  induction pre with
  | nil => intro rest _; rfl
  | cons c cs ih =>
    intro rest h
    have hg : ciMatchAt p ((c :: cs) ++ rest) = false :=
      h (c :: cs) (by rw [List.tails_cons]; exact List.mem_cons_self _ _)
        (by simp)
    rw [List.cons_append] at hg ⊢
    simp only [scanCapture, hg, Bool.false_eq_true, if_false]
    exact ih rest fun l hl hlne =>
      h l (by rw [List.tails_cons]; exact List.mem_cons_of_mem _ hl) hlne

theorem scanCapture_at_match (p : List Char) (hp : p ≠ [])
    (hlow : p.map Char.toLower = p) (idtl id : List Char)
    (hcap : idtl.takeWhile (fun x => !isStopChar x) = id) (hne : id ≠ []) :
    scanCapture p (p ++ idtl) = some id := by
  have hmatch : ciMatchAt p (p ++ idtl) = true := by
    unfold ciMatchAt
    rw [List.take_left, hlow]
    exact beq_self_eq_true p
  cases p with
  | nil => exact absurd rfl hp
  | cons c cs =>
    rw [List.cons_append] at hmatch ⊢
    simp only [scanCapture, hmatch, if_true]
    have hdrop : (c :: (cs ++ idtl)).drop (c :: cs).length = idtl := by
      rw [List.length_cons, List.drop_succ_cons]
      exact List.drop_left cs idtl
    rw [hdrop, hcap, if_neg (by simp [List.isEmpty_iff, hne])]

theorem scanCapture_canonical (pre id tl : List Char)
    (hpre : ∀ l ∈ pre.tails, l ≠ [] →
      ciMatchAt ("linkedin.com/in/".data)
        (l ++ "linkedin.com/in/".data) = false)
    (hne : id ≠ []) (hstop : ∀ ch ∈ id, isStopChar ch = false)
    (htl : tl.takeWhile (fun x => !isStopChar x) = []) :
    scanCapture ("linkedin.com/in/".data)
      (pre ++ ("linkedin.com/in/".data ++ (id ++ tl))) = some id := by
  have hskip : ∀ l ∈ pre.tails, l ≠ [] →
      ciMatchAt ("linkedin.com/in/".data)
        (l ++ ("linkedin.com/in/".data ++ (id ++ tl))) = false := by
    intro l hl hlne
    rw [← List.append_assoc]
    rw [ciMatchAt_append _ _ _ (by
      rw [List.length_append]
      exact Nat.le_add_left _ _)]
    exact hpre l hl hlne
  rw [scanCapture_append_skip _ pre _ hskip]
  refine scanCapture_at_match _ (by decide) (by decide) _ id ?_ hne
  have hid : id.takeWhile (fun x => !isStopChar x) = id :=
    List.takeWhile_eq_self_iff.mpr (by
      intro a ha
      simp [hstop a ha])
  rw [List.takeWhile_append, hid, if_pos rfl, htl, List.append_nil]

theorem data_ne_nil_of_ne_empty (s : String) (h : s ≠ "") : s.data ≠ [] := by
  intro hd
  apply h
  have h2 : s = ⟨s.data⟩ := rfl
  rw [h2, hd]

theorem normalize_of_capture (u : String) (hu : u ≠ "") (id : String)
    (hscan : scanCapture (ContactMatcherService.inPattern.data) u.data
      = some id.data) :
    ContactMatcherService.normalizeLinkedInUrl (some u) none
      = some ("https://www.linkedin.com/in/" ++ id) := by
  unfold ContactMatcherService.normalizeLinkedInUrl
  rw [if_neg (by simp [jsTruthy])]
  rw [if_neg (by simp [jsTruthy, hu])]
  have hcap : regexCaptureCI ContactMatcherService.inPattern u
      = some id := by
    unfold regexCaptureCI
    rw [hscan]
    rfl
  simp only [Option.getD_some, hcap]

theorem mem_of_mem_dedupKeepFirst :
    ∀ (l : List String) (seen : List String) (v : String),
      v ∈ dedupKeepFirst seen l → v ∈ l := by
  intro l
  induction l with
  | nil => intro seen v h; simp [dedupKeepFirst] at h
  | cons x xs ih =>
    intro seen v h
    unfold dedupKeepFirst at h
    by_cases hx : x ∈ seen
    · rw [if_pos hx] at h
      exact List.mem_cons_of_mem _ (ih seen v h)
    · rw [if_neg hx] at h
      rcases List.mem_cons.mp h with h1 | h1
      · exact h1 ▸ List.mem_cons_self _ _
      · exact List.mem_cons_of_mem _ (ih (x :: seen) v h1)

theorem variations_of_capture (u : String) (id : String)
    (hscan : scanCapture (ContactMatcherService.inPattern.data) u.data
      = some id.data) :
    ContactMatcherService.getLinkedInUrlVariations u
      = dedupKeepFirst []
          [u,
           "https://www.linkedin.com/in/" ++ id,
           "https://linkedin.com/in/" ++ id,
           "http://www.linkedin.com/in/" ++ id,
           "http://linkedin.com/in/" ++ id,
           "https://www.linkedin.com/in/" ++ id ++ "/",
           "linkedin.com/in/" ++ id] := by
  unfold ContactMatcherService.getLinkedInUrlVariations
  have hcap : regexCaptureCI ContactMatcherService.inPattern u = some id := by
    unfold regexCaptureCI
    rw [hscan]
    rfl
  rw [hcap]

theorem canonical_scan_string (v : String) (id : String) (pre tl : List Char)
    (hdata : v.data = pre ++ ("linkedin.com/in/".data ++ (id.data ++ tl)))
    (hpre : ∀ l ∈ pre.tails, l ≠ [] →
      ciMatchAt ("linkedin.com/in/".data)
        (l ++ "linkedin.com/in/".data) = false)
    (hne : id.data ≠ []) (hstop : ∀ ch ∈ id.data, isStopChar ch = false)
    (htl : tl.takeWhile (fun x => !isStopChar x) = []) :
    scanCapture ("linkedin.com/in/".data) v.data = some id.data ∧ v ≠ "" := by
  have hpat : ("linkedin.com/in/".data : List Char) ≠ [] := by decide
  constructor
  · rw [hdata]
    exact scanCapture_canonical pre id.data tl hpre hne hstop htl
  · have hvd : v.data ≠ [] := by
      rw [hdata]
      simp [List.append_eq_nil, hpat]
    intro hv
    rw [hv] at hvd
    exact hvd rfl

/-- C8: for an already-canonical LinkedIn URL (a nonempty id with no
stop characters after the canonical prefix) `normalizeLinkedInUrl` is the
identity, and every variation produced by `getLinkedInUrlVariations` from
the canonical URL normalizes back to the same canonical form. -/
theorem C8_normalization_idempotent (id : String) (hne : id ≠ "")
    (hstop : ∀ ch ∈ id.data, isStopChar ch = false) :
    ContactMatcherService.normalizeLinkedInUrl
      (some ("https://www.linkedin.com/in/" ++ id)) none
      = some ("https://www.linkedin.com/in/" ++ id) ∧
    (∀ v ∈ ContactMatcherService.getLinkedInUrlVariations
        ("https://www.linkedin.com/in/" ++ id),
      ContactMatcherService.normalizeLinkedInUrl (some v) none
        = some ("https://www.linkedin.com/in/" ++ id)) := by
  have hned : id.data ≠ [] := data_ne_nil_of_ne_empty id hne
  have hsplit : ("https://www.linkedin.com/in/".data : List Char)
      = "https://www.".data ++ "linkedin.com/in/".data := by decide
  have hpre1 : ∀ l ∈ ("https://www.".data : List Char).tails, l ≠ [] →
      ciMatchAt ("linkedin.com/in/".data)
        (l ++ "linkedin.com/in/".data) = false := by decide
  have hpre3 : ∀ l ∈ ("https://".data : List Char).tails, l ≠ [] →
      ciMatchAt ("linkedin.com/in/".data)
        (l ++ "linkedin.com/in/".data) = false := by decide
  have hpre4 : ∀ l ∈ ("http://www.".data : List Char).tails, l ≠ [] →
      ciMatchAt ("linkedin.com/in/".data)
        (l ++ "linkedin.com/in/".data) = false := by decide
  have hpre5 : ∀ l ∈ ("http://".data : List Char).tails, l ≠ [] →
      ciMatchAt ("linkedin.com/in/".data)
        (l ++ "linkedin.com/in/".data) = false := by decide
  have hpre7 : ∀ l ∈ ([] : List Char).tails, l ≠ [] →
      ciMatchAt ("linkedin.com/in/".data)
        (l ++ "linkedin.com/in/".data) = false := by decide
  have h1 := canonical_scan_string ("https://www.linkedin.com/in/" ++ id) id
    "https://www.".data [] (by
      rw [String.data_append, List.append_nil, hsplit, List.append_assoc])
    hpre1 hned hstop (by decide)
  have h3 := canonical_scan_string ("https://linkedin.com/in/" ++ id) id
    "https://".data [] (by
      rw [String.data_append, List.append_nil,
        show ("https://linkedin.com/in/".data : List Char)
          = "https://".data ++ "linkedin.com/in/".data by decide,
        List.append_assoc])
    hpre3 hned hstop (by decide)
  have h4 := canonical_scan_string ("http://www.linkedin.com/in/" ++ id) id
    "http://www.".data [] (by
      rw [String.data_append, List.append_nil,
        show ("http://www.linkedin.com/in/".data : List Char)
          = "http://www.".data ++ "linkedin.com/in/".data by decide,
        List.append_assoc])
    hpre4 hned hstop (by decide)
  have h5 := canonical_scan_string ("http://linkedin.com/in/" ++ id) id
    "http://".data [] (by
      rw [String.data_append, List.append_nil,
        show ("http://linkedin.com/in/".data : List Char)
          = "http://".data ++ "linkedin.com/in/".data by decide,
        List.append_assoc])
    hpre5 hned hstop (by decide)
  have h6 := canonical_scan_string
    ("https://www.linkedin.com/in/" ++ id ++ "/") id "https://www.".data
    ['/'] (by
      rw [String.data_append, String.data_append, hsplit,
        show ("/".data : List Char) = ['/'] from rfl]
      simp [List.append_assoc])
    hpre1 hned hstop (by decide)
  have h7 := canonical_scan_string ("linkedin.com/in/" ++ id) id [] [] (by
      rw [String.data_append, List.append_nil, List.nil_append])
    hpre7 hned hstop (by decide)
  refine ⟨normalize_of_capture _ h1.2 id h1.1, ?_⟩
  intro v hv
  rw [variations_of_capture _ id h1.1] at hv
  have hv2 := mem_of_mem_dedupKeepFirst _ [] v hv
  simp only [List.mem_cons, List.not_mem_nil, or_false] at hv2
  rcases hv2 with rfl | rfl | rfl | rfl | rfl | rfl | rfl
  · exact normalize_of_capture _ h1.2 id h1.1
  · exact normalize_of_capture _ h1.2 id h1.1
  · exact normalize_of_capture _ h3.2 id h3.1
  · exact normalize_of_capture _ h4.2 id h4.1
  · exact normalize_of_capture _ h5.2 id h5.1
  · exact normalize_of_capture _ h6.2 id h6.1
  · exact normalize_of_capture _ h7.2 id h7.1

/-- Witness for C8 at the concrete canonical URL of the §8 example. -/
theorem C8_witness :
    ContactMatcherService.normalizeLinkedInUrl
      (some "https://www.linkedin.com/in/ada") none
      = some "https://www.linkedin.com/in/ada" := by
  have h := (C8_normalization_idempotent "ada" (by decide) (by decide)).1
  simpa using h
